import Mathlib

/-!
Verification of the EcoLedger ledger/verification core.

This file shallowly embeds the two ledger services of the repository:

* `App` models `backend/ledger_service/app.py` (SQLite tables `blocks`,
  `transactions`, `carbon_credits`, `credit_transfers`; genesis block number 0;
  transactions move from a pending row to a confirmed row; each commit step
  runs on its own SQLite connection with its own `commit()`).
* `Sim` models `backend/ledger_service/blockchain_api.py`
  (class `BlockchainSimulator`; genesis block gets AUTOINCREMENT number 1;
  each operation performs all of its inserts on a single connection with a
  single `commit()`, so one operation is atomic).

Python's `hashlib.sha256(...).hexdigest()` and `json.dumps(..., sort_keys=True)`
are standard-library functions, not repository code; they are modelled as
arbitrary pure deterministic functions `sha : String → String` and
`dmp : Json → String` passed as parameters.  Every theorem below uses only
their determinism, exactly as the source does for the properties at stake.
SQLite tables are modelled as Lean lists holding the columns the source
writes; a freshly inserted row is consed at the front.  JSON payloads are
stored as their structural value: `json.loads (json.dumps v)` is deep-equal
to `v` for every JSON value, so storing the value is faithful to storing the
serialized string for every claim considered here.
-/

/-- Structural JSON values, the shape of the payloads the ledger stores. -/
inductive Json where
  | null : Json
  | bool : Bool → Json
  | num : ℚ → Json
  | str : String → Json
  | arr : List Json → Json
  | obj : List (String × Json) → Json

/-- Model of Python's `dict.get k`: look a key up in an object, `none` otherwise. -/
def Json.get : Json → String → Option Json
  | .obj kvs, k => (kvs.find? (fun p => p.1 == k)).map (fun p => p.2)
  | _, _ => none

/-- A row of a `blocks` table.  Both services store the same columns
(`app.py` names the last one `transactions_count`, `blockchain_api.py`
names it `transaction_count`); the synthetic AUTOINCREMENT `id` column of
`app.py` and the `created_at` defaults are omitted as never read. -/
structure Block where
  block_number : Nat
  previous_hash : String
  block_hash : String
  timestamp : String
  merkle_root : String
  transactions_count : Nat

/-- Fold step for `SELECT * FROM blocks ORDER BY block_number DESC LIMIT 1`:
keep the row with the larger block number. -/
def latestMax (acc : Option Block) (b : Block) : Option Block :=
  match acc with
  | none => some b
  | some a => if a.block_number < b.block_number then some b else some a

/-- The row returned by `SELECT * FROM blocks ORDER BY block_number DESC LIMIT 1`
(block numbers are UNIQUE, so this is the block with the maximal number). -/
def latestBlock (bs : List Block) : Option Block :=
  bs.foldl latestMax none

/-- Hash-chain shape of a block table listed newest first: the oldest block
has number `base`, each later block has the successor number and cites the
previous block's hash as its `previous_hash`. -/
def chainFrom : Nat → List Block → Prop
  | _, [] => True
  | base, [b] => b.block_number = base
  | base, b :: a :: rest =>
      b.block_number = a.block_number + 1 ∧ b.previous_hash = a.block_hash ∧
        chainFrom base (a :: rest)

/-- Row of the `transactions` table of `app.py` (the unused `signature` and
`created_at` columns, never written by the source, are omitted).
`block_number` is NULL while the transaction is pending. -/
structure App.Txn where
  tx_hash : String
  block_number : Option Nat
  tx_type : String
  from_entity : String
  to_entity : String
  data : Json
  timestamp : String
  status : String

/-- Row of the `carbon_credits` table of `app.py`. -/
structure App.Credit where
  credit_id : String
  ngo_id : String
  project_id : String
  credits_amount : ℚ
  verification_score : ℚ
  co2_absorbed : ℚ
  tree_count : ℚ
  project_location : String
  issuance_date : String
  status : String
  owner_id : String
  price_per_credit : ℚ
  market_value : ℚ
  verification_data : Json
  tx_hash : String

/-- Row of the `credit_transfers` table of `app.py`. -/
structure App.Transfer where
  transfer_id : String
  credit_id : String
  from_owner : String
  to_owner : String
  credits_transferred : ℚ
  transfer_price : ℚ
  transfer_date : String
  tx_hash : String
  status : String

/-- The durable state of the `app.py` store: its four ledger tables. -/
structure App.LedgerState where
  blocks : List Block
  transactions : List Txn
  credits : List Credit
  transfers : List Transfer

/-- A store with freshly created, still empty tables. -/
def App.emptyLedger : LedgerState := ⟨[], [], [], []⟩

/-- Source `calculate_hash(*data)`: SHA-256 of the concatenation of the
string forms of the arguments, with the digest function as parameter `sha`. -/
def App.calculate_hash (sha : String → String) (parts : List String) : String :=
  sha (String.join parts)

/-- Source `get_last_block()`: the row of `blocks` with the highest number. -/
def App.get_last_block (s : LedgerState) : Option Block :=
  latestBlock s.blocks

/-- Genesis payload of `create_genesis_block` in `app.py`, keys listed in the
sorted order `json.dumps(..., sort_keys=True)` emits. -/
def App.genesisData (ts : String) : Json :=
  Json.obj [(("message"), Json.str ("EcoLedger Genesis Block - Carbon Credit Verification System")),
            (("timestamp"), Json.str ts),
            (("type"), Json.str ("genesis"))]

/-- Source `create_genesis_block()`: insert block number 0 with previous
hash the sentinel `'0'`, merkle root `'genesis'` and a zero transaction
count.  `ts_data` and `ts_blk` are the two `datetime.now()` readings. -/
def App.create_genesis_block (sha : String → String) (dmp : Json → String)
    (ts_data ts_blk : String) (s : LedgerState) : LedgerState :=
  let genesis_hash := calculate_hash sha [("0"), dmp (genesisData ts_data)]
  { s with blocks := ⟨0, ("0"), genesis_hash, ts_blk, ("genesis"), 0⟩ :: s.blocks }

/-- Source `init_database()` applied to a store: tables are created (a no-op
on the model) and, when the `blocks` table is empty, the genesis block is
inserted. -/
def App.init_database (sha : String → String) (dmp : Json → String)
    (ts_data ts_blk : String) (s : LedgerState) : LedgerState :=
  if s.blocks.length = 0 then create_genesis_block sha dmp ts_data ts_blk s else s

/-- Source `create_transaction(...)`: build the transaction envelope, hash its
canonical serialization, and insert a **pending** transaction row with no
block number; its own SQLite connection commits here.  Returns the
transaction hash together with the durable state, as the source returns
`tx_hash` after its `conn.commit()`. -/
def App.create_transaction (sha : String → String) (dmp : Json → String)
    (tx_type from_entity to_entity : String) (data : Json)
    (tx_id ts : String) (s : LedgerState) : String × LedgerState :=
  let tx_data := Json.obj [(("tx_id"), Json.str tx_id),
                           (("type"), Json.str tx_type),
                           (("from"), Json.str from_entity),
                           (("to"), Json.str to_entity),
                           (("data"), data),
                           (("timestamp"), Json.str ts)]
  let tx_hash := calculate_hash sha [dmp tx_data]
  (tx_hash,
    { s with transactions :=
        ⟨tx_hash, none, tx_type, from_entity, to_entity, data, ts, ("pending")⟩
          :: s.transactions })

/-- Source `create_new_block(transactions)`: read the last block (raising —
modelled as `none` — when the table is empty), link the new block to it by
number and hash, and insert it on its own connection.  The callers each pass
a single-transaction list, summarized here by its `tx_hash` values. -/
def App.create_new_block (sha : String → String) (tx_hashes : List String)
    (ts : String) (s : LedgerState) : Option (Block × LedgerState) :=
  match get_last_block s with
  | none => none
  | some last =>
      let new_block_number := last.block_number + 1
      let previous_hash := last.block_hash
      let merkle_root :=
        if tx_hashes.isEmpty then ("empty") else calculate_hash sha tx_hashes
      let block_hash :=
        calculate_hash sha [toString new_block_number, previous_hash, merkle_root, ts]
      let b : Block :=
        ⟨new_block_number, previous_hash, block_hash, ts, merkle_root, tx_hashes.length⟩
      some (b, { s with blocks := b :: s.blocks })

/-- Source `UPDATE transactions SET block_number = ?, status = 'confirmed'
WHERE tx_hash = ?`, run on its own connection. -/
def App.confirm_transaction (tx_hash : String) (n : Nat) (s : LedgerState) : LedgerState :=
  { s with transactions := s.transactions.map (fun t =>
      if t.tx_hash == tx_hash then { t with block_number := some n, status := ("confirmed") } else t) }

/-- The chain references a successful commit returns to the caller. -/
structure App.CommitInfo where
  tx_hash : String
  block_number : Nat
  block_hash : String
  timestamp : String

/-- Payload of the verification-submission transaction in `app.py`. -/
def App.submitPayload (project_id : String) (verification_data : Json) : Json :=
  Json.obj [(("project_id"), Json.str project_id),
            (("verification_data"), verification_data),
            (("action"), Json.str ("submit_verification_report"))]

/-- Route `/ledger/submit` of `app.py`: insert a pending transaction, create
a block containing it, then confirm the transaction with that block number.
Each of the three steps commits on its own connection; when block creation
raises (no last block), the route answers 500 with the pending row already
durable — the model then returns `none` with that partial state. -/
def App.submit_verification_report (sha : String → String) (dmp : Json → String)
    (ngo_id project_id : String) (verification_data : Json)
    (tx_id ts_tx ts_blk : String) (s : LedgerState) : Option CommitInfo × LedgerState :=
  let r := create_transaction sha dmp ("verification_submission") ngo_id
    ("ecoledger_system") (submitPayload project_id verification_data) tx_id ts_tx s
  match create_new_block sha [r.1] ts_blk r.2 with
  | none => (none, r.2)
  | some (b, s2) =>
      (some ⟨r.1, b.block_number, b.block_hash, b.timestamp⟩,
        confirm_transaction r.1 b.block_number s2)

/-- Payload of the credit-issuance transaction in `app.py`. -/
def App.issuePayload (credit_id project_id : String)
    (credits_amount verification_score : ℚ) : Json :=
  Json.obj [(("credit_id"), Json.str credit_id),
            (("project_id"), Json.str project_id),
            (("credits_amount"), Json.num credits_amount),
            (("verification_score"), Json.num verification_score),
            (("action"), Json.str ("issue_carbon_credits"))]

/-- Route `/ledger/issue` of `app.py`: pending transaction, then the credit
row (status `active`, owner the issuing NGO), then the block, then the
confirmation — four separately committed steps, the credit row durable
before the block exists. -/
def App.issue_carbon_credits (sha : String → String) (dmp : Json → String)
    (ngo_id project_id : String) (credits_amount verification_score : ℚ)
    (co2_absorbed tree_count : ℚ) (project_location : String)
    (price_per_credit : ℚ) (verification_data : Json)
    (credit_id tx_id ts_tx ts_issue ts_blk : String) (s : LedgerState) :
    Option CommitInfo × LedgerState :=
  let r := create_transaction sha dmp ("credit_issuance") ("ecoledger_system") ngo_id
    (issuePayload credit_id project_id credits_amount verification_score) tx_id ts_tx s
  let credit : Credit :=
    ⟨credit_id, ngo_id, project_id, credits_amount, verification_score,
      co2_absorbed, tree_count, project_location, ts_issue, ("active"), ngo_id,
      price_per_credit, credits_amount * price_per_credit, verification_data, r.1⟩
  let s2 := { r.2 with credits := credit :: r.2.credits }
  match create_new_block sha [r.1] ts_blk s2 with
  | none => (none, s2)
  | some (b, s3) =>
      (some ⟨r.1, b.block_number, b.block_hash, b.timestamp⟩,
        confirm_transaction r.1 b.block_number s3)

/-- Typed outcome of the transfer route's error responses (404 / 403 / 400 /
500 in the source). -/
inductive App.TransferError where
  | creditNotFound : TransferError
  | ownershipMismatch : TransferError
  | insufficientCredits : TransferError
  | noGenesis : TransferError

/-- Source lookup `SELECT credits_amount, owner_id, status FROM carbon_credits
WHERE credit_id = ? AND status = 'active'` (first matching row). -/
def App.find_active_credit (credit_id : String) (s : LedgerState) : Option Credit :=
  s.credits.find? (fun c => c.credit_id == credit_id && c.status == ("active"))

/-- Payload of the credit-transfer transaction in `app.py`. -/
def App.transferPayload (transfer_id credit_id : String)
    (credits_amount transfer_price : ℚ) : Json :=
  Json.obj [(("transfer_id"), Json.str transfer_id),
            (("credit_id"), Json.str credit_id),
            (("credits_amount"), Json.num credits_amount),
            (("transfer_price"), Json.num transfer_price),
            (("total_value"), Json.num (credits_amount * transfer_price)),
            (("action"), Json.str ("transfer_carbon_credits"))]

/-- Route `/ledger/transfer` of `app.py`: checks (credit active, owner
matches, balance sufficient) all run before any write; then the pending
transaction, then — on one shared connection — the `credit_transfers` row
plus the two `carbon_credits` UPDATEs (reassign owner and subtract the
amount; set status `transferred` where the amount reached 0), then the
block, then the confirmation. -/
def App.transfer_carbon_credits (sha : String → String) (dmp : Json → String)
    (credit_id from_owner to_owner : String) (credits_amount transfer_price : ℚ)
    (transfer_id tx_id ts_tx ts_xfer ts_blk : String) (s : LedgerState) :
    Except TransferError CommitInfo × LedgerState :=
  match find_active_credit credit_id s with
  | none => (Except.error TransferError.creditNotFound, s)
  | some c =>
      if c.owner_id ≠ from_owner then (Except.error TransferError.ownershipMismatch, s)
      else if c.credits_amount < credits_amount then
        (Except.error TransferError.insufficientCredits, s)
      else
        let r := create_transaction sha dmp ("credit_transfer") from_owner to_owner
          (transferPayload transfer_id credit_id credits_amount transfer_price) tx_id ts_tx s
        let xfer : Transfer :=
          ⟨transfer_id, credit_id, from_owner, to_owner, credits_amount,
            transfer_price, ts_xfer, r.1, ("completed")⟩
        let s2 := { r.2 with
          transfers := xfer :: r.2.transfers,
          credits := r.2.credits.map (fun cr : Credit =>
            if cr.credit_id == credit_id then
              { cr with owner_id := to_owner,
                        credits_amount := cr.credits_amount - credits_amount }
            else cr) }
        let s3 := { s2 with credits := s2.credits.map (fun cr : Credit =>
            if cr.credit_id == credit_id && decide (cr.credits_amount = 0) then
              { cr with status := ("transferred") }
            else cr) }
        match create_new_block sha [r.1] ts_blk s3 with
        | none => (Except.error TransferError.noGenesis, s3)
        | some (b, s4) =>
            (Except.ok ⟨r.1, b.block_number, b.block_hash, b.timestamp⟩,
              confirm_transaction r.1 b.block_number s4)

/-- Ledger-store invariant of `app.py`: the block table is nonempty and forms
a hash chain numbered from 0 (the genesis block). -/
def App.Inv (s : LedgerState) : Prop :=
  s.blocks ≠ [] ∧ chainFrom 0 s.blocks

/-- One committed ledger operation of `app.py`: a verification submission, a
credit issuance, or a credit transfer, with arbitrary caller inputs and
arbitrary environment inputs (UUIDs and timestamps).  The resulting state is
whatever the operation leaves durable, including the states its error paths
leave behind. -/
inductive App.Step (sha : String → String) (dmp : Json → String) : LedgerState → LedgerState → Prop
  | submit (ngo proj : String) (v : Json) (tid t1 t2 : String) (s : LedgerState) :
      Step sha dmp s (submit_verification_report sha dmp ngo proj v tid t1 t2 s).2
  | issue (ngo proj : String) (amt score co2 tc : ℚ) (loc : String) (price : ℚ)
      (vd : Json) (cid tid t1 t2 t3 : String) (s : LedgerState) :
      Step sha dmp s (issue_carbon_credits sha dmp ngo proj amt score co2 tc loc
        price vd cid tid t1 t2 t3 s).2
  | transfer (cid fo tow : String) (amt price : ℚ) (xid tid t1 t2 t3 : String)
      (s : LedgerState) :
      Step sha dmp s (transfer_carbon_credits sha dmp cid fo tow amt price xid
        tid t1 t2 t3 s).2

/-- States reachable by the service: database initialization (which creates
the genesis block) followed by any sequence of ledger operations. -/
inductive App.Reachable (sha : String → String) (dmp : Json → String) : LedgerState → Prop
  | init (ts1 ts2 : String) : Reachable sha dmp (init_database sha dmp ts1 ts2 emptyLedger)
  | step {s s' : LedgerState} : Reachable sha dmp s → Step sha dmp s s' →
      Reachable sha dmp s'

/-- Concrete digest function used by the witnesses: any deterministic
function is a faithful stand-in for SHA-256 in the theorems above, none of
which rely on collision resistance. -/
def shaW : String → String := fun s => String.append ("sha256:") s

/-- Concrete canonical-serialization stand-in used by the witnesses. -/
def dmpW : Json → String := fun _ => ("serialized")

/-- Reachable state used by the witness of C1: genesis plus one submitted
verification report, so the linkage is checked on a block with number 1. -/
def wState1 : App.LedgerState :=
  (App.submit_verification_report shaW dmpW ("ngo1") ("proj1") Json.null
    ("tid1") ("t3") ("t4") (App.init_database shaW dmpW ("t1") ("t2") App.emptyLedger)).2

/-- Credit row used by the witness of C5: owned by `ngoB`. -/
def wCredit5 : App.Credit :=
  ⟨("CR1"), ("ngoB"), ("proj1"), 10, 1, 0, 0, ("loc"), ("d1"), ("active"), ("ngoB"), 2, 20,
    Json.null, ("h1")⟩

/-- Store used by the witness of C5: one genesis block and one active credit. -/
def wState5 : App.LedgerState :=
  ⟨[⟨0, ("0"), ("genesis-hash"), ("t0"), ("genesis"), 0⟩], [], [wCredit5], []⟩

/-- Credit row used by the witness of C6: active, owned by `ngoA`, balance 10. -/
def wCredit6 : App.Credit :=
  ⟨("CR2"), ("ngoA"), ("proj1"), 10, 1, 0, 0, ("loc"), ("d1"), ("active"), ("ngoA"), 2, 20,
    Json.null, ("h2")⟩

/-- Store used by the witness of C6: one genesis block and the credit above. -/
def wState6 : App.LedgerState :=
  ⟨[⟨0, ("0"), ("genesis-hash"), ("t0"), ("genesis"), 0⟩], [], [wCredit6], []⟩

/-- Row of the `transactions` table of `blockchain_api.py`; `data` holds the
stored JSON string as its structural value and `status` defaults to
`confirmed`. -/
structure Sim.STxn where
  transaction_id : String
  block_number : Nat
  transaction_type : String
  from_org : String
  to_org : Option String
  data : Json
  data_hash : String
  timestamp : String
  status : String

/-- Row of the `verification_reports` table of `blockchain_api.py`. -/
structure Sim.SReport where
  report_id : String
  ngo_id : String
  project_id : String
  verification_data : Json
  data_hash : String
  final_score : Option Json
  carbon_credits : Option Json
  transaction_id : String
  status : String

/-- Row of the `carbon_credits` table of `blockchain_api.py`. -/
structure Sim.SCredit where
  credit_id : String
  ngo_id : String
  company_id : Option String
  amount : ℚ
  price_per_credit : Option ℚ
  total_value : Option ℚ
  report_id : String
  status : String
  transferred_at : Option String

/-- The durable state of the `BlockchainSimulator` store. -/
structure Sim.SimState where
  blocks : List Block
  transactions : List STxn
  reports : List SReport
  credits : List SCredit

/-- A store right after `_init_database`: tables created, all empty. -/
def Sim.emptySim : SimState := ⟨[], [], [], []⟩

/-- Source `_calculate_hash(data)` on a dict: SHA-256 of
`json.dumps(data, sort_keys=True)`, with the digest and the canonical
serializer as parameters. -/
def Sim.calculate_hash (sha : String → String) (dmp : Json → String) (data : Json) : String :=
  sha (dmp data)

/-- Source `_get_latest_block()`. -/
def Sim.get_latest_block (s : SimState) : Option Block :=
  latestBlock s.blocks

/-- Genesis payload of `_create_genesis_block`, keys in sorted order. -/
def Sim.genesisData (ts : String) : Json :=
  Json.obj [(("message"), Json.str ("EcoLedger Genesis Block")),
            (("timestamp"), Json.str ts),
            (("type"), Json.str ("genesis"))]

/-- Source `_create_genesis_block()`: when no block exists, insert one with
previous hash `'0'`, the genesis hash as both block hash and merkle root and
the default transaction count 0; AUTOINCREMENT assigns block number
`length + 1` (1 on a fresh store). -/
def Sim.create_genesis_block (sha : String → String) (dmp : Json → String)
    (ts_data ts_blk : String) (s : SimState) : SimState :=
  match get_latest_block s with
  | some _ => s
  | none =>
      let genesis_hash := calculate_hash sha dmp (genesisData ts_data)
      { s with blocks :=
          ⟨s.blocks.length + 1, ("0"), genesis_hash, ts_blk, genesis_hash, 0⟩ :: s.blocks }

/-- The `transaction_data` dict built by `submit_verification_report`. -/
def Sim.submitTxData (report_id ngo_id project_id data_hash ts : String) : Json :=
  Json.obj [(("type"), Json.str ("verification_report")),
            (("report_id"), Json.str report_id),
            (("ngo_id"), Json.str ngo_id),
            (("project_id"), Json.str project_id),
            (("data_hash"), Json.str data_hash),
            (("timestamp"), Json.str ts)]

/-- The `block_data` dict each operation hashes into the block hash. -/
def Sim.blockData (block_number : Nat) (previous_hash : String) (tx_data : Json)
    (ts : String) : Json :=
  Json.obj [(("block_number"), Json.num (block_number : ℚ)),
            (("previous_hash"), Json.str previous_hash),
            (("transactions"), Json.arr [tx_data]),
            (("timestamp"), Json.str ts)]

/-- The record `submit_verification_report` returns to the caller. -/
structure Sim.SubmitResult where
  report_id : String
  transaction_id : String
  block_number : Nat
  block_hash : String
  data_hash : String

/-- Source `submit_verification_report`: ensure genesis, hash the payload,
link a new block to the latest one (with the source's `else 1` / `else '0'`
fallbacks), then insert block, transaction and report rows on one
connection — one atomic commit.  `report_id` and `transaction_id` are the
generated UUIDs; the `ts_*` arguments are the successive `datetime.now()`
readings. -/
def Sim.submit_verification_report (sha : String → String) (dmp : Json → String)
    (ngo_id project_id : String) (verification_data : Json)
    (report_id transaction_id ts_g1 ts_g2 ts_tx ts_blk ts_row : String)
    (s : SimState) : SubmitResult × SimState :=
  let s0 := create_genesis_block sha dmp ts_g1 ts_g2 s
  let data_hash := calculate_hash sha dmp verification_data
  let tx_data := submitTxData report_id ngo_id project_id data_hash ts_tx
  let latest := get_latest_block s0
  let new_block_number := match latest with
    | some lb => lb.block_number + 1
    | none => 1
  let previous_hash := match latest with
    | some lb => lb.block_hash
    | none => ("0")
  let block_hash := calculate_hash sha dmp
    (blockData new_block_number previous_hash tx_data ts_blk)
  let b : Block := ⟨s0.blocks.length + 1, previous_hash, block_hash, ts_blk, data_hash, 1⟩
  let t : STxn := ⟨transaction_id, new_block_number, ("verification_report"), ngo_id,
    none, verification_data, data_hash, ts_row, ("confirmed")⟩
  let r : SReport := ⟨report_id, ngo_id, project_id, verification_data, data_hash,
    verification_data.get ("Final_Score"), verification_data.get ("Carbon_Credits"),
    transaction_id, ("submitted")⟩
  (⟨report_id, transaction_id, new_block_number, block_hash, data_hash⟩,
    { s0 with blocks := b :: s0.blocks, transactions := t :: s0.transactions,
              reports := r :: s0.reports })

/-- Source `query_report`: the report row joined with its transaction and
that transaction's block; the stored JSON string is parsed back into the
payload value. -/
def Sim.query_report (report_id : String) (s : SimState) : Option (SReport × STxn × Block) :=
  (s.reports.find? (fun rr => rr.report_id == report_id)).bind (fun r =>
    (s.transactions.find? (fun tt => tt.transaction_id == r.transaction_id)).bind (fun t =>
      (s.blocks.find? (fun bb => bb.block_number == t.block_number)).map (fun b =>
        (r, t, b))))

/-- The `transaction_data` dict built by `issue_carbon_credits`. -/
def Sim.issueTxData (credit_id ngo_id : String) (amount : ℚ) (report_id ts : String) : Json :=
  Json.obj [(("type"), Json.str ("issue_credits")),
            (("credit_id"), Json.str credit_id),
            (("ngo_id"), Json.str ngo_id),
            (("amount"), Json.num amount),
            (("report_id"), Json.str report_id),
            (("timestamp"), Json.str ts)]

/-- The record `issue_carbon_credits` returns to the caller. -/
structure Sim.IssueResult where
  credit_id : String
  transaction_id : String
  block_number : Nat
  block_hash : String
  amount : ℚ

/-- Source `issue_carbon_credits`: no check that `report_id` references an
existing report; reads the latest block (raising, with no writes, when the
table is empty — the `none` result) and inserts block, transaction and
credit rows atomically.  Python's `(amount * price) if price else None`
treats a 0 price like an absent one. -/
def Sim.issue_carbon_credits (sha : String → String) (dmp : Json → String)
    (ngo_id report_id : String) (amount : ℚ) (price_per_credit : Option ℚ)
    (credit_id transaction_id ts_tx ts_blk ts_row : String) (s : SimState) :
    Option IssueResult × SimState :=
  let total_value := match price_per_credit with
    | none => none
    | some p => if p = 0 then none else some (amount * p)
  let tx_data := issueTxData credit_id ngo_id amount report_id ts_tx
  match get_latest_block s with
  | none => (none, s)
  | some latest =>
      let new_block_number := latest.block_number + 1
      let block_hash := calculate_hash sha dmp
        (blockData new_block_number latest.block_hash tx_data ts_blk)
      let data_hash := calculate_hash sha dmp tx_data
      let b : Block := ⟨s.blocks.length + 1, latest.block_hash, block_hash, ts_blk, data_hash, 1⟩
      let t : STxn := ⟨transaction_id, new_block_number, ("issue_credits"), ngo_id,
        none, tx_data, data_hash, ts_row, ("confirmed")⟩
      let c : SCredit := ⟨credit_id, ngo_id, none, amount, price_per_credit, total_value,
        report_id, ("available"), none⟩
      (some ⟨credit_id, transaction_id, new_block_number, block_hash, amount⟩,
        { s with blocks := b :: s.blocks, transactions := t :: s.transactions,
                 credits := c :: s.credits })

/-- The `transaction_data` dict built by `transfer_credits`. -/
def Sim.transferTxData (credit_id from_ngo to_company : String) (amount : ℚ)
    (ts : String) : Json :=
  Json.obj [(("type"), Json.str ("transfer_credits")),
            (("credit_id"), Json.str credit_id),
            (("from_ngo"), Json.str from_ngo),
            (("to_company"), Json.str to_company),
            (("amount"), Json.num amount),
            (("timestamp"), Json.str ts)]

/-- The record `transfer_credits` returns to the caller. -/
structure Sim.TransferResult where
  transaction_id : String
  block_number : Nat
  block_hash : String
  credit_id : String
  amount : ℚ

/-- Source `transfer_credits`: look the credit up by id among the available
ones; `transfer_amount = amount or credit['amount']` makes both a missing
and a zero `amount` fall back to the full balance; fail (no writes) when the
requested amount exceeds the balance or no block exists; otherwise insert
block and transaction rows and update the credit row — new company, status
`transferred`, transfer timestamp — atomically.  No ownership check is
performed on `from_ngo`. -/
def Sim.transfer_credits (sha : String → String) (dmp : Json → String)
    (credit_id from_ngo to_company : String) (amount : Option ℚ)
    (transaction_id ts_tx ts_blk ts_row ts_xfer : String) (s : SimState) :
    Option TransferResult × SimState :=
  match s.credits.find? (fun c => c.credit_id == credit_id && c.status == ("available")) with
  | none => (none, s)
  | some credit =>
      let transfer_amount := match amount with
        | none => credit.amount
        | some a => if a = 0 then credit.amount else a
      if credit.amount < transfer_amount then (none, s)
      else
        let tx_data := transferTxData credit_id from_ngo to_company transfer_amount ts_tx
        match get_latest_block s with
        | none => (none, s)
        | some latest =>
            let new_block_number := latest.block_number + 1
            let block_hash := calculate_hash sha dmp
              (blockData new_block_number latest.block_hash tx_data ts_blk)
            let data_hash := calculate_hash sha dmp tx_data
            let b : Block := ⟨s.blocks.length + 1, latest.block_hash, block_hash,
              ts_blk, data_hash, 1⟩
            let t : STxn := ⟨transaction_id, new_block_number, ("transfer_credits"),
              from_ngo, some to_company, tx_data, data_hash, ts_row, ("confirmed")⟩
            (some ⟨transaction_id, new_block_number, block_hash, credit_id, transfer_amount⟩,
              { s with blocks := b :: s.blocks, transactions := t :: s.transactions,
                       credits := s.credits.map (fun c : SCredit =>
                         if c.credit_id == credit_id then
                           { c with
                             company_id := some to_company,
                             status := ("transferred"),
                             transferred_at := some ts_xfer }
                         else c) })

/-- One operation of the `BlockchainSimulator`: the explicit genesis call of
the `__main__` block, or one of the three commit operations, with arbitrary
caller and environment inputs. -/
inductive Sim.Step (sha : String → String) (dmp : Json → String) : SimState → SimState → Prop
  | genesis (t1 t2 : String) (s : SimState) :
      Step sha dmp s (create_genesis_block sha dmp t1 t2 s)
  | submit (ngo proj : String) (v : Json) (rid tid tg1 tg2 t1 t2 t3 : String) (s : SimState) :
      Step sha dmp s (submit_verification_report sha dmp ngo proj v rid tid tg1 tg2 t1 t2 t3 s).2
  | issue (ngo rid : String) (amt : ℚ) (price : Option ℚ) (cid tid t1 t2 t3 : String)
      (s : SimState) :
      Step sha dmp s (issue_carbon_credits sha dmp ngo rid amt price cid tid t1 t2 t3 s).2
  | transfer (cid fngo tco : String) (amt : Option ℚ) (tid t1 t2 t3 t4 : String)
      (s : SimState) :
      Step sha dmp s (transfer_credits sha dmp cid fngo tco amt tid t1 t2 t3 t4 s).2

/-- States reachable by the simulator: a fresh store followed by any
sequence of operations. -/
inductive Sim.Reachable (sha : String → String) (dmp : Json → String) : SimState → Prop
  | init : Reachable sha dmp emptySim
  | step {s s' : SimState} : Reachable sha dmp s → Step sha dmp s s' → Reachable sha dmp s'

/-- Store invariant of the simulator: blocks chain from number 1, every
transaction's block exists, and every transaction's stored hash is the
canonical hash of its stored payload. -/
def Sim.SimInv (sha : String → String) (dmp : Json → String) (s : SimState) : Prop :=
  chainFrom 1 s.blocks ∧
  (∀ t ∈ s.transactions, ∃ b ∈ s.blocks, b.block_number = t.block_number) ∧
  (∀ t ∈ s.transactions, t.data_hash = calculate_hash sha dmp t.data)

/-- Reachable simulator state used by the witness of C4: one submitted
verification report on a fresh store. -/
def wState4 : Sim.SimState :=
  (Sim.submit_verification_report shaW dmpW ("ngo1") ("proj1") Json.null ("r1") ("tx1")
    ("g1") ("g2") ("t1") ("t2") ("t3") Sim.emptySim).2

/-- Credit row used by the witness of C10: available, balance 7. -/
def wCredit10 : Sim.SCredit :=
  ⟨("SC1"), ("ngo1"), none, 7, none, none, ("r1"), ("available"), none⟩

/-- Genesis-style block used by the C10 and C7 witnesses. -/
def wBlock10 : Block := ⟨1, ("0"), ("genesis-hash"), ("t0"), ("genesis-hash"), 0⟩

/-- Store used by the witness of C10. -/
def wState10 : Sim.SimState := ⟨[wBlock10], [], [], [wCredit10]⟩

/-- Store used by the C7 evaluation: one genesis-style block, no reports. -/
def wState7 : Sim.SimState := ⟨[wBlock10], [], [], []⟩

theorem chainFrom_strict {base : Nat} :
    ∀ (rest : List Block) (b : Block), chainFrom base (b :: rest) →
      ∀ x ∈ rest, x.block_number < b.block_number
  | [], _, _, x, hx => absurd hx (List.not_mem_nil x)
  | a :: r, b, h, x, hx => by
      obtain ⟨h1, _, h3⟩ := h
      rcases List.mem_cons.mp hx with rfl | hx'
      · omega
      · have := chainFrom_strict r a h3 x hx'
        omega

theorem chainFrom_head_number {base : Nat} :
    ∀ (rest : List Block) (b : Block), chainFrom base (b :: rest) →
      b.block_number + 1 = base + (b :: rest).length
  | [], b, h => by
      simp only [chainFrom] at h
      simp [h]
  | a :: r, b, h => by
      obtain ⟨h1, _, h3⟩ := h
      have := chainFrom_head_number r a h3
      simp only [List.length_cons] at *
      omega

theorem chainFrom_cons {base : Nat} {a : Block} {rest : List Block} (b : Block)
    (h : chainFrom base (a :: rest)) (hn : b.block_number = a.block_number + 1)
    (hp : b.previous_hash = a.block_hash) : chainFrom base (b :: a :: rest) :=
  ⟨hn, hp, h⟩

/-- Every block except the oldest one is linked, by number and hash, to a
predecessor present in the table. -/
theorem chainFrom_linkage {base : Nat} :
    ∀ (l : List Block), chainFrom base l → ∀ b ∈ l, base < b.block_number →
      ∃ a ∈ l, a.block_number + 1 = b.block_number ∧ b.previous_hash = a.block_hash
  | [], _, b, hb, _ => absurd hb (List.not_mem_nil b)
  | [x], h, b, hb, hpos => by
      simp only [List.mem_singleton] at hb
      subst hb
      simp only [chainFrom] at h
      omega
  | x :: y :: rest, h, b, hb, hpos => by
      obtain ⟨h1, h2, h3⟩ := h
      rcases List.mem_cons.mp hb with rfl | hb'
      · exact ⟨y, by simp, by omega, h2⟩
      · obtain ⟨a, ha, hn, hp⟩ := chainFrom_linkage (y :: rest) h3 b hb' hpos
        exact ⟨a, List.mem_cons_of_mem x ha, hn, hp⟩

theorem foldl_latestMax_some :
    ∀ (bs : List Block) (a : Block), (∀ x ∈ bs, x.block_number < a.block_number) →
      bs.foldl latestMax (some a) = some a
  | [], _, _ => rfl
  | x :: r, a, h => by
      have hx : x.block_number < a.block_number := h x (by simp)
      have hstep : latestMax (some a) x = some a := by
        simp [latestMax, Nat.not_lt.mpr (Nat.le_of_lt hx)]
      rw [List.foldl_cons, hstep]
      exact foldl_latestMax_some r a (fun y hy => h y (by simp [hy]))

theorem foldl_latestMax_isSome :
    ∀ (bs : List Block) (a : Block), ∃ c, bs.foldl latestMax (some a) = some c
  | [], a => ⟨a, rfl⟩
  | x :: r, a => by
      rw [List.foldl_cons]
      by_cases hc : a.block_number < x.block_number
      · rw [show latestMax (some a) x = some x from by simp [latestMax, hc]]
        exact foldl_latestMax_isSome r x
      · rw [show latestMax (some a) x = some a from by simp [latestMax, hc]]
        exact foldl_latestMax_isSome r a

theorem latestBlock_cons {b : Block} {rest : List Block}
    (h : ∀ x ∈ rest, x.block_number < b.block_number) :
    latestBlock (b :: rest) = some b := by
  unfold latestBlock
  rw [List.foldl_cons]
  exact foldl_latestMax_some rest b h

theorem latestBlock_of_ne_nil {bs : List Block} (h : bs ≠ []) :
    ∃ c, latestBlock bs = some c := by
  match bs with
  | [] => exact absurd rfl h
  | x :: r =>
      unfold latestBlock
      rw [List.foldl_cons]
      exact foldl_latestMax_isSome r x

theorem latestBlock_nil : latestBlock [] = none := rfl

/-- The latest block of a chain-shaped table is its newest (head) entry. -/
theorem latestBlock_of_chain {base : Nat} {b : Block} {rest : List Block}
    (h : chainFrom base (b :: rest)) : latestBlock (b :: rest) = some b :=
  latestBlock_cons (chainFrom_strict rest b h)

theorem App.create_new_block_spec (sha : String → String) (txs : List String) (ts : String)
    {s : LedgerState} {hd : Block} (hlast : latestBlock s.blocks = some hd) :
    ∃ b s', create_new_block sha txs ts s = some (b, s') ∧
      s'.blocks = b :: s.blocks ∧ b.block_number = hd.block_number + 1 ∧
      b.previous_hash = hd.block_hash := by
  unfold create_new_block get_last_block
  rw [hlast]
  exact ⟨_, _, rfl, rfl, rfl, rfl⟩

theorem App.create_new_block_of_ne_nil (sha : String → String) (txs : List String) (ts : String)
    {s : LedgerState} (hne : s.blocks ≠ []) :
    ∃ b s', create_new_block sha txs ts s = some (b, s') ∧ s'.blocks = b :: s.blocks := by
  obtain ⟨c, hc⟩ := latestBlock_of_ne_nil hne
  obtain ⟨b, s', heq, hbl, _, _⟩ := create_new_block_spec sha txs ts hc
  exact ⟨b, s', heq, hbl⟩

theorem App.create_new_block_none (sha : String → String) (txs : List String) (ts : String)
    {s : LedgerState} (h : s.blocks = []) : create_new_block sha txs ts s = none := by
  unfold create_new_block get_last_block
  rw [h]
  rfl

/-- A linked block append preserves the chain invariant. -/
theorem App.create_new_block_inv (sha : String → String) (txs : List String) (ts : String)
    {s : LedgerState} (hinv : Inv s) :
    ∃ b s', create_new_block sha txs ts s = some (b, s') ∧ s'.blocks = b :: s.blocks ∧ Inv s' := by
  obtain ⟨hne, hch⟩ := hinv
  obtain ⟨hd, tl, hblocks⟩ := List.exists_cons_of_ne_nil hne
  have hch' : chainFrom 0 (hd :: tl) := hblocks ▸ hch
  have hlast : latestBlock s.blocks = some hd := by
    rw [hblocks]; exact latestBlock_of_chain hch'
  obtain ⟨b, s', heq, hbl, hnum, hprev⟩ := create_new_block_spec sha txs ts hlast
  refine ⟨b, s', heq, hbl, ?_, ?_⟩
  · rw [hbl]; exact List.cons_ne_nil b s.blocks
  · rw [hbl, hblocks]; exact chainFrom_cons b hch' hnum hprev

/-- Equation-oriented form of `create_new_block_inv`, convenient after `split`. -/
theorem App.create_new_block_eq_inv {sha : String → String} {txs : List String} {ts : String}
    {s : LedgerState} {b : Block} {s' : LedgerState}
    (heq : create_new_block sha txs ts s = some (b, s')) (hinv : Inv s) :
    s'.blocks = b :: s.blocks ∧ Inv s' := by
  obtain ⟨b2, s2, heq2, hbl, hinv2⟩ := create_new_block_inv sha txs ts hinv
  have h := heq.symm.trans heq2
  injection h with h'
  cases h'
  exact ⟨hbl, hinv2⟩

theorem App.submit_inv (sha : String → String) (dmp : Json → String)
    (ngo proj : String) (v : Json) (tid t1 t2 : String) {s : LedgerState}
    (hinv : Inv s) :
    Inv (submit_verification_report sha dmp ngo proj v tid t1 t2 s).2 := by
  simp only [submit_verification_report]
  split
  · exact hinv
  · rename_i b s' heq
    exact (create_new_block_eq_inv heq hinv).2

theorem App.issue_inv (sha : String → String) (dmp : Json → String)
    (ngo proj : String) (amt score co2 tc : ℚ) (loc : String) (price : ℚ) (vd : Json)
    (cid tid t1 t2 t3 : String) {s : LedgerState} (hinv : Inv s) :
    Inv (issue_carbon_credits sha dmp ngo proj amt score co2 tc loc price vd
      cid tid t1 t2 t3 s).2 := by
  simp only [issue_carbon_credits]
  split
  · exact hinv
  · rename_i b s' heq
    exact (create_new_block_eq_inv heq hinv).2

theorem App.transfer_inv (sha : String → String) (dmp : Json → String)
    (cid fo tow : String) (amt price : ℚ) (xid tid t1 t2 t3 : String)
    {s : LedgerState} (hinv : Inv s) :
    Inv (transfer_carbon_credits sha dmp cid fo tow amt price xid tid t1 t2 t3 s).2 := by
  simp only [transfer_carbon_credits]
  split
  · exact hinv
  · split
    · exact hinv
    · split
      · exact hinv
      · split
        · exact hinv
        · rename_i b s' heq
          exact (create_new_block_eq_inv heq hinv).2

theorem App.init_inv (sha : String → String) (dmp : Json → String) (ts1 ts2 : String) :
    Inv (init_database sha dmp ts1 ts2 emptyLedger) := by
  constructor
  · simp [init_database, create_genesis_block, emptyLedger]
  · show chainFrom 0 [⟨0, ("0"), _, ts2, ("genesis"), 0⟩]
    simp [chainFrom]

theorem App.reachable_inv (sha : String → String) (dmp : Json → String) {s : LedgerState}
    (h : Reachable sha dmp s) : Inv s := by
  induction h with
  | init ts1 ts2 => exact init_inv sha dmp ts1 ts2
  | step _ hs ih =>
      cases hs with
      | submit ngo proj v tid t1 t2 s => exact submit_inv sha dmp ngo proj v tid t1 t2 ih
      | issue ngo proj amt score co2 tc loc price vd cid tid t1 t2 t3 s =>
          exact issue_inv sha dmp ngo proj amt score co2 tc loc price vd cid tid t1 t2 t3 ih
      | transfer cid fo tow amt price xid tid t1 t2 t3 s =>
          exact transfer_inv sha dmp cid fo tow amt price xid tid t1 t2 t3 ih

/-- The state a successful block append returns: the input state with the new
block consed onto the block table. -/
theorem App.create_new_block_state {sha : String → String} {txs : List String} {ts : String}
    {s : LedgerState} {b : Block} {s' : LedgerState}
    (heq : create_new_block sha txs ts s = some (b, s')) :
    s' = { s with blocks := b :: s.blocks } := by
  rcases hb : latestBlock s.blocks with _ | cb
  · unfold create_new_block get_last_block at heq
    rw [hb] at heq
    cases heq
  · unfold create_new_block get_last_block at heq
    rw [hb] at heq
    injection heq with h2
    obtain ⟨h3, h4⟩ := (Prod.mk.injEq _ _ _ _).mp h2
    subst h4
    subst h3
    rfl

theorem App.create_new_block_some_blocks {sha : String → String} {txs : List String}
    {ts : String} {s : LedgerState} {b : Block} {s' : LedgerState}
    (heq : create_new_block sha txs ts s = some (b, s')) : s.blocks ≠ [] := by
  intro h
  rw [create_new_block_none sha txs ts h] at heq
  cases heq

theorem App.create_new_block_none_blocks {sha : String → String} {txs : List String}
    {ts : String} {s : LedgerState}
    (heq : create_new_block sha txs ts s = none) : s.blocks = [] := by
  rcases hb : s.blocks with _ | ⟨hd, tl⟩
  · rfl
  · obtain ⟨cb, hcb⟩ := latestBlock_of_ne_nil (show s.blocks ≠ [] by rw [hb]; simp)
    unfold create_new_block get_last_block at heq
    rw [hcb] at heq
    cases heq

/-- When the block table is empty, `create_new_block` raises inside the submit
route after the pending transaction's insert already committed: the route
reports failure while the pending row stays durable and no other table moved. -/
theorem App.submit_on_empty_blocks (sha : String → String) (dmp : Json → String)
    (ngo proj : String) (v : Json) (tid t1 t2 : String) (s : LedgerState)
    (h : s.blocks = []) :
    (submit_verification_report sha dmp ngo proj v tid t1 t2 s).1 = none ∧
    (submit_verification_report sha dmp ngo proj v tid t1 t2 s).2.blocks = s.blocks ∧
    (submit_verification_report sha dmp ngo proj v tid t1 t2 s).2.credits = s.credits ∧
    (submit_verification_report sha dmp ngo proj v tid t1 t2 s).2.transfers = s.transfers ∧
    ∃ t : Txn, (submit_verification_report sha dmp ngo proj v tid t1 t2 s).2.transactions
        = t :: s.transactions ∧ t.status = ("pending") ∧ t.block_number = none := by
  simp only [submit_verification_report]
  split
  · exact ⟨rfl, rfl, rfl, rfl, ⟨_, rfl, rfl, rfl⟩⟩
  · rename_i b s' heq
    exact ((create_new_block_some_blocks heq) h).elim

/-- Same failure point inside the issue route: both the pending transaction
row and the credit row are already durable when block creation raises. -/
theorem App.issue_on_empty_blocks (sha : String → String) (dmp : Json → String)
    (ngo proj : String) (amt score co2 tc : ℚ) (loc : String) (price : ℚ)
    (vd : Json) (cid tid t1 t2 t3 : String) (s : LedgerState)
    (h : s.blocks = []) :
    (issue_carbon_credits sha dmp ngo proj amt score co2 tc loc price vd cid tid t1 t2 t3 s).1 = none ∧
    (issue_carbon_credits sha dmp ngo proj amt score co2 tc loc price vd cid tid t1 t2 t3 s).2.blocks = s.blocks ∧
    (∃ c : Credit, (issue_carbon_credits sha dmp ngo proj amt score co2 tc loc price vd cid tid t1 t2 t3 s).2.credits
        = c :: s.credits ∧ c.credit_id = cid) ∧
    ∃ t : Txn, (issue_carbon_credits sha dmp ngo proj amt score co2 tc loc price vd cid tid t1 t2 t3 s).2.transactions
        = t :: s.transactions ∧ t.status = ("pending") ∧ t.block_number = none := by
  simp only [issue_carbon_credits]
  split
  · exact ⟨rfl, rfl, ⟨_, rfl, rfl⟩, ⟨_, rfl, rfl, rfl⟩⟩
  · rename_i b s' heq
    exact ((create_new_block_some_blocks heq) h).elim

/-- Claim C1: in every reachable state of the `app.py` ledger — genesis
initialization followed by any sequence of verification submissions, credit
issuances and credit transfers — every stored block with number n > 0 cites,
as its `previous_hash`, the `block_hash` of a stored block numbered n - 1. -/
theorem app_hash_chain_invariant (sha : String → String) (dmp : Json → String)
    {s : App.LedgerState} (h : App.Reachable sha dmp s) :
    ∀ b ∈ s.blocks, 0 < b.block_number →
      ∃ a ∈ s.blocks, a.block_number + 1 = b.block_number ∧
        b.previous_hash = a.block_hash := by
  intro b hb hpos
  exact chainFrom_linkage s.blocks (App.reachable_inv sha dmp h).2 b hb hpos

theorem app_hash_chain_invariant_witness :
    App.Reachable shaW dmpW wState1 ∧
      ∀ b ∈ wState1.blocks, 0 < b.block_number →
        ∃ a ∈ wState1.blocks, a.block_number + 1 = b.block_number ∧
          b.previous_hash = a.block_hash := by
  have hr : App.Reachable shaW dmpW wState1 :=
    App.Reachable.step (App.Reachable.init ("t1") ("t2"))
      (App.Step.submit ("ngo1") ("proj1") Json.null ("tid1") ("t3") ("t4") _)
  exact ⟨hr, app_hash_chain_invariant shaW dmpW hr⟩

/-- Claim C2: database initialization on a fresh store leaves exactly one
block — the genesis block — with block number 0, the sentinel previous hash
`'0'` and zero transactions, and every other table still empty. -/
theorem app_genesis_initialization (sha : String → String) (dmp : Json → String)
    (ts1 ts2 : String) :
    ∃ b : Block, (App.init_database sha dmp ts1 ts2 App.emptyLedger).blocks = [b] ∧
      b.block_number = 0 ∧ b.previous_hash = ("0") ∧ b.transactions_count = 0 ∧
      (App.init_database sha dmp ts1 ts2 App.emptyLedger).transactions = [] ∧
      (App.init_database sha dmp ts1 ts2 App.emptyLedger).credits = [] ∧
      (App.init_database sha dmp ts1 ts2 App.emptyLedger).transfers = [] :=
  ⟨_, rfl, rfl, rfl, rfl, rfl, rfl, rfl⟩

/-- Claim C3 counterexample: run the issuance commit on a store whose block
table is empty, so the block-creation step fails (the `create_new_block`
raise in `app.py`).  The claim says nothing becomes visible; instead the
operation reports failure (`none`) while a pending transaction row and the
credit row — both committed by earlier steps on their own connections — are
durable, so the resulting store differs from the input store. -/
theorem app_commit_abort_cex :
    (App.issue_carbon_credits shaW dmpW ("ngo1") ("proj1") 10 1 0 0 ("loc") 2
        Json.null ("ECC-1") ("tx-1") ("t1") ("t2") ("t3") App.emptyLedger).1 = none ∧
    ((App.issue_carbon_credits shaW dmpW ("ngo1") ("proj1") 10 1 0 0 ("loc") 2
        Json.null ("ECC-1") ("tx-1") ("t1") ("t2") ("t3") App.emptyLedger).2.transactions.map
          (fun t => t.status)) = [("pending")] ∧
    ((App.issue_carbon_credits shaW dmpW ("ngo1") ("proj1") 10 1 0 0 ("loc") 2
        Json.null ("ECC-1") ("tx-1") ("t1") ("t2") ("t3") App.emptyLedger).2.credits.map
          (fun c => c.credit_id)) = [("ECC-1")] ∧
    (App.issue_carbon_credits shaW dmpW ("ngo1") ("proj1") 10 1 0 0 ("loc") 2
        Json.null ("ECC-1") ("tx-1") ("t1") ("t2") ("t3") App.emptyLedger).2 ≠ App.emptyLedger := by
  refine ⟨rfl, rfl, rfl, fun hcontra => ?_⟩
  exact Nat.one_ne_zero (congrArg (fun st => st.transactions.length) hcontra)

/-- Claim C3 as amended: a failing commit step aborts the remainder of the
operation, but the effects of the steps that already committed stay visible.
When block creation fails, the submit route leaves its pending transaction
row durable and the issue route leaves both its pending transaction row and
its credit row durable; no new block appears and no transaction is
confirmed. -/
theorem app_commit_abort_partial_state (sha : String → String) (dmp : Json → String)
    (ngo proj : String) (v : Json) (tid t1 t2 : String)
    (amt score co2 tc : ℚ) (loc : String) (price : ℚ) (vd : Json)
    (cid tid2 t3 t4 t5 : String) (s : App.LedgerState) (hempty : s.blocks = []) :
    ((App.submit_verification_report sha dmp ngo proj v tid t1 t2 s).1 = none ∧
      (App.submit_verification_report sha dmp ngo proj v tid t1 t2 s).2.blocks = s.blocks ∧
      (App.submit_verification_report sha dmp ngo proj v tid t1 t2 s).2.credits = s.credits ∧
      (App.submit_verification_report sha dmp ngo proj v tid t1 t2 s).2.transfers = s.transfers ∧
      ∃ t : App.Txn, (App.submit_verification_report sha dmp ngo proj v tid t1 t2 s).2.transactions
          = t :: s.transactions ∧ t.status = ("pending") ∧ t.block_number = none) ∧
    ((App.issue_carbon_credits sha dmp ngo proj amt score co2 tc loc price vd cid tid2 t3 t4 t5 s).1 = none ∧
      (App.issue_carbon_credits sha dmp ngo proj amt score co2 tc loc price vd cid tid2 t3 t4 t5 s).2.blocks = s.blocks ∧
      (∃ c : App.Credit, (App.issue_carbon_credits sha dmp ngo proj amt score co2 tc loc price vd cid tid2 t3 t4 t5 s).2.credits
          = c :: s.credits ∧ c.credit_id = cid) ∧
      ∃ t : App.Txn, (App.issue_carbon_credits sha dmp ngo proj amt score co2 tc loc price vd cid tid2 t3 t4 t5 s).2.transactions
          = t :: s.transactions ∧ t.status = ("pending") ∧ t.block_number = none) :=
  ⟨App.submit_on_empty_blocks sha dmp ngo proj v tid t1 t2 s hempty,
   App.issue_on_empty_blocks sha dmp ngo proj amt score co2 tc loc price vd cid tid2 t3 t4 t5 s hempty⟩

theorem app_commit_abort_partial_state_witness :
    App.emptyLedger.blocks = [] ∧
    (((App.submit_verification_report shaW dmpW ("ngo1") ("proj1") Json.null ("tid") ("t1") ("t2") App.emptyLedger).1 = none ∧
      (App.submit_verification_report shaW dmpW ("ngo1") ("proj1") Json.null ("tid") ("t1") ("t2") App.emptyLedger).2.blocks = App.emptyLedger.blocks ∧
      (App.submit_verification_report shaW dmpW ("ngo1") ("proj1") Json.null ("tid") ("t1") ("t2") App.emptyLedger).2.credits = App.emptyLedger.credits ∧
      (App.submit_verification_report shaW dmpW ("ngo1") ("proj1") Json.null ("tid") ("t1") ("t2") App.emptyLedger).2.transfers = App.emptyLedger.transfers ∧
      ∃ t : App.Txn, (App.submit_verification_report shaW dmpW ("ngo1") ("proj1") Json.null ("tid") ("t1") ("t2") App.emptyLedger).2.transactions
          = t :: App.emptyLedger.transactions ∧ t.status = ("pending") ∧ t.block_number = none) ∧
    ((App.issue_carbon_credits shaW dmpW ("ngo1") ("proj1") 10 1 0 0 ("loc") 2 Json.null ("cid") ("tid2") ("t3") ("t4") ("t5") App.emptyLedger).1 = none ∧
      (App.issue_carbon_credits shaW dmpW ("ngo1") ("proj1") 10 1 0 0 ("loc") 2 Json.null ("cid") ("tid2") ("t3") ("t4") ("t5") App.emptyLedger).2.blocks = App.emptyLedger.blocks ∧
      (∃ c : App.Credit, (App.issue_carbon_credits shaW dmpW ("ngo1") ("proj1") 10 1 0 0 ("loc") 2 Json.null ("cid") ("tid2") ("t3") ("t4") ("t5") App.emptyLedger).2.credits
          = c :: App.emptyLedger.credits ∧ c.credit_id = ("cid")) ∧
      ∃ t : App.Txn, (App.issue_carbon_credits shaW dmpW ("ngo1") ("proj1") 10 1 0 0 ("loc") 2 Json.null ("cid") ("tid2") ("t3") ("t4") ("t5") App.emptyLedger).2.transactions
          = t :: App.emptyLedger.transactions ∧ t.status = ("pending") ∧ t.block_number = none)) :=
  ⟨rfl, app_commit_abort_partial_state shaW dmpW ("ngo1") ("proj1") Json.null ("tid") ("t1") ("t2")
    10 1 0 0 ("loc") 2 Json.null ("cid") ("tid2") ("t3") ("t4") ("t5") App.emptyLedger rfl⟩

/-- Claim C5: when the active credit row found for the requested id is owned
by someone other than `from_owner`, the transfer route answers with the
ownership-mismatch error before performing any write, and the store is
returned exactly unchanged — no new block, no new transaction, no row
mutation. -/
theorem app_transfer_ownership_mismatch (sha : String → String) (dmp : Json → String)
    (cid fo tow : String) (amt price : ℚ) (xid tid t1 t2 t3 : String)
    (s : App.LedgerState) (c : App.Credit)
    (hfind : App.find_active_credit cid s = some c) (hown : c.owner_id ≠ fo) :
    App.transfer_carbon_credits sha dmp cid fo tow amt price xid tid t1 t2 t3 s =
      (Except.error App.TransferError.ownershipMismatch, s) := by
  simp only [App.transfer_carbon_credits]
  rw [hfind]
  simp [hown]

theorem app_transfer_ownership_mismatch_witness :
    App.find_active_credit ("CR1") wState5 = some wCredit5 ∧
    wCredit5.owner_id ≠ ("ngoA") ∧
    App.transfer_carbon_credits shaW dmpW ("CR1") ("ngoA") ("companyB") 5 1
        ("x1") ("tx1") ("t1") ("t2") ("t3") wState5 =
      (Except.error App.TransferError.ownershipMismatch, wState5) :=
  ⟨rfl, by decide,
    app_transfer_ownership_mismatch shaW dmpW ("CR1") ("ngoA") ("companyB") 5 1
      ("x1") ("tx1") ("t1") ("t2") ("t3") wState5 wCredit5 rfl (by decide)⟩

/-- Claim C6: a successful transfer of `amt` (positive, within balance) out
of an active credit leaves a credit row whose owner is the recipient (the
whole remaining balance is reassigned even when `amt` is partial), whose
amount is the old amount minus `amt`, and whose status is `transferred`
exactly when that difference is zero. -/
theorem app_transfer_success_effect (sha : String → String) (dmp : Json → String)
    (cid fo tow : String) (amt price : ℚ) (xid tid t1 t2 t3 : String)
    (s : App.LedgerState) (c : App.Credit)
    (hfind : App.find_active_credit cid s = some c)
    (hown : c.owner_id = fo) (hpos : 0 < amt) (hle : amt ≤ c.credits_amount)
    (hne : s.blocks ≠ []) :
    ∃ info s', App.transfer_carbon_credits sha dmp cid fo tow amt price xid tid t1 t2 t3 s =
        (Except.ok info, s') ∧
      ({ c with
          owner_id := tow,
          credits_amount := c.credits_amount - amt,
          status := if c.credits_amount - amt = 0 then ("transferred") else c.status } : App.Credit)
        ∈ s'.credits ∧
      (({ c with
          owner_id := tow,
          credits_amount := c.credits_amount - amt,
          status := if c.credits_amount - amt = 0 then ("transferred") else c.status } : App.Credit).status
        = ("transferred") ↔ c.credits_amount - amt = 0) := by
  have hfind' : s.credits.find? (fun cr => cr.credit_id == cid && cr.status == ("active"))
      = some c := hfind
  have hp := List.find?_some hfind'
  rw [Bool.and_eq_true] at hp
  have hcid : c.credit_id = cid := by
    have h := hp.1
    simpa using h
  have hstatus : c.status = ("active") := by
    have h := hp.2
    simpa using h
  have hcmem : c ∈ s.credits := List.mem_of_find?_eq_some hfind'
  have hiff : (({ c with
      owner_id := tow,
      credits_amount := c.credits_amount - amt,
      status := if c.credits_amount - amt = 0 then ("transferred") else c.status } : App.Credit).status
        = ("transferred") ↔ c.credits_amount - amt = 0) := by
    by_cases hz : c.credits_amount - amt = 0
    · simp [hz]
    · simp only [if_neg hz]
      constructor
      · intro hct
        rw [hstatus] at hct
        exact absurd hct (by decide)
      · intro hzz
        exact absurd hzz hz
  simp only [App.transfer_carbon_credits, hfind]
  split
  · rename_i hcontra
    exact (hcontra hown).elim
  · split
    · rename_i hlt
      exact ((not_lt.mpr hle) hlt).elim
    · split
      · rename_i heq
        have hb := App.create_new_block_none_blocks heq
        exact (hne hb).elim
      · rename_i b s4 heq
        have hs4 := App.create_new_block_state heq
        subst hs4
        refine ⟨_, _, rfl, ?_, hiff⟩
        have h1 : (fun cr : App.Credit => if cr.credit_id == cid then
            { cr with owner_id := tow, credits_amount := cr.credits_amount - amt } else cr) c
            = { c with owner_id := tow, credits_amount := c.credits_amount - amt } := by
          simp [hcid]
        have hmem1 := List.mem_map_of_mem (fun cr : App.Credit => if cr.credit_id == cid then
            { cr with owner_id := tow, credits_amount := cr.credits_amount - amt } else cr) hcmem
        rw [h1] at hmem1
        have h2 : (fun cr : App.Credit => if cr.credit_id == cid && decide (cr.credits_amount = 0) then
            { cr with status := ("transferred") } else cr)
            ({ c with owner_id := tow, credits_amount := c.credits_amount - amt } : App.Credit)
            = { c with
                owner_id := tow,
                credits_amount := c.credits_amount - amt,
                status := if c.credits_amount - amt = 0 then ("transferred") else c.status } := by
          by_cases hz : c.credits_amount - amt = 0
          · simp [hcid, hz]
          · simp [hcid, hz]
        have hmem2 := List.mem_map_of_mem (fun cr : App.Credit =>
            if cr.credit_id == cid && decide (cr.credits_amount = 0) then
              { cr with status := ("transferred") } else cr) hmem1
        rw [h2] at hmem2
        exact hmem2

theorem app_transfer_success_effect_witness :
    App.find_active_credit ("CR2") wState6 = some wCredit6 ∧
    wCredit6.owner_id = ("ngoA") ∧ (0 : ℚ) < 4 ∧ (4 : ℚ) ≤ wCredit6.credits_amount ∧
    wState6.blocks ≠ [] ∧
    (∃ info s', App.transfer_carbon_credits shaW dmpW ("CR2") ("ngoA") ("companyB") 4 1
        ("x2") ("tx2") ("t1") ("t2") ("t3") wState6 = (Except.ok info, s') ∧
      ({ wCredit6 with
          owner_id := ("companyB"),
          credits_amount := wCredit6.credits_amount - 4,
          status := if wCredit6.credits_amount - 4 = 0 then ("transferred") else wCredit6.status } : App.Credit)
        ∈ s'.credits ∧
      (({ wCredit6 with
          owner_id := ("companyB"),
          credits_amount := wCredit6.credits_amount - 4,
          status := if wCredit6.credits_amount - 4 = 0 then ("transferred") else wCredit6.status } : App.Credit).status
        = ("transferred") ↔ wCredit6.credits_amount - 4 = 0)) :=
  ⟨rfl, rfl, by norm_num, by decide, by exact List.cons_ne_nil _ _,
    app_transfer_success_effect shaW dmpW ("CR2") ("ngoA") ("companyB") 4 1
      ("x2") ("tx2") ("t1") ("t2") ("t3") wState6 wCredit6 rfl rfl (by norm_num) (by decide)
      (by exact List.cons_ne_nil _ _)⟩

theorem latestBlock_none_eq_nil {bs : List Block} (h : latestBlock bs = none) : bs = [] := by
  rcases bs with _ | ⟨x, r⟩
  · rfl
  · obtain ⟨c, hc⟩ := latestBlock_of_ne_nil (List.cons_ne_nil x r)
    rw [h] at hc
    cases hc

/-- After `_create_genesis_block` runs on a chain-shaped store, a latest
block exists; it is the head of the table and carries the AUTOINCREMENT
number `length`, transactions are untouched and no block is lost. -/
theorem Sim.genesis_latest (sha : String → String) (dmp : Json → String)
    (t1 t2 : String) {s : SimState} (hch : chainFrom 1 s.blocks) :
    ∃ L, get_latest_block (create_genesis_block sha dmp t1 t2 s) = some L ∧
      L.block_number = (create_genesis_block sha dmp t1 t2 s).blocks.length ∧
      chainFrom 1 (create_genesis_block sha dmp t1 t2 s).blocks ∧
      (∃ rest, (create_genesis_block sha dmp t1 t2 s).blocks = L :: rest) ∧
      (∀ x ∈ s.blocks, x ∈ (create_genesis_block sha dmp t1 t2 s).blocks) ∧
      (create_genesis_block sha dmp t1 t2 s).transactions = s.transactions := by
  rcases hb : s.blocks with _ | ⟨hd, tl⟩
  · have hlat : get_latest_block s = none := by
      unfold get_latest_block
      rw [hb]
      rfl
    have hgeq : create_genesis_block sha dmp t1 t2 s =
        { s with blocks :=
            ⟨s.blocks.length + 1, ("0"), calculate_hash sha dmp (genesisData t1), t2,
              calculate_hash sha dmp (genesisData t1), 0⟩ :: s.blocks } := by
      simp only [create_genesis_block, hlat]
    rw [hgeq, hb]
    refine ⟨_, rfl, rfl, ?_, ⟨_, rfl⟩, ?_, rfl⟩
    · simp [chainFrom]
    · intro x hx
      cases hx
  · have hch' : chainFrom 1 (hd :: tl) := hb ▸ hch
    have hlat : get_latest_block s = some hd := by
      unfold get_latest_block
      rw [hb]
      exact latestBlock_of_chain hch'
    have hgen : create_genesis_block sha dmp t1 t2 s = s := by
      simp only [create_genesis_block, hlat]
    have hn := chainFrom_head_number tl hd hch'
    rw [hgen]
    refine ⟨hd, hlat, ?_, hch, ⟨tl, hb⟩, fun x hx => by rw [hb]; exact hx, rfl⟩
    rw [hb]
    simp only [List.length_cons] at hn ⊢
    omega

/-- A latest block of a chain-shaped table is the head and carries the
number `length`. -/
theorem Sim.latest_spec {s : SimState} {L : Block} (hch : chainFrom 1 s.blocks)
    (hl : get_latest_block s = some L) :
    ∃ rest, s.blocks = L :: rest ∧ L.block_number = s.blocks.length := by
  obtain ⟨hd, tl, hb⟩ : ∃ hd tl, s.blocks = hd :: tl := by
    rcases hbb : s.blocks with _ | ⟨x, r⟩
    · unfold get_latest_block at hl
      rw [hbb] at hl
      cases hl
    · exact ⟨x, r, rfl⟩
  have hch' : chainFrom 1 (hd :: tl) := hb ▸ hch
  have hlat : get_latest_block s = some hd := by
    unfold get_latest_block
    rw [hb]
    exact latestBlock_of_chain hch'
  have hL : L = hd := by
    rw [hlat] at hl
    injection hl with h
    exact h.symm
  subst hL
  have h2 := chainFrom_head_number tl L hch'
  refine ⟨tl, hb, ?_⟩
  rw [hb]
  simp only [List.length_cons] at h2 ⊢
  omega

theorem Sim.submit_keeps_inv (sha : String → String) (dmp : Json → String)
    (ngo proj : String) (v : Json) (rid tid tg1 tg2 t1 t2 t3 : String)
    {s : SimState} (hinv : SimInv sha dmp s) :
    SimInv sha dmp (submit_verification_report sha dmp ngo proj v rid tid tg1 tg2 t1 t2 t3 s).2 := by
  obtain ⟨hch, htb, hth⟩ := hinv
  obtain ⟨L, hlat, hlen, hch0, ⟨rest, hblk⟩, hsub, htrans⟩ :=
    genesis_latest sha dmp tg1 tg2 hch
  rw [hblk] at hlen
  simp only [submit_verification_report, hlat]
  refine ⟨?_, ?_, ?_⟩
  · show chainFrom 1 (_ :: (create_genesis_block sha dmp tg1 tg2 s).blocks)
    rw [hblk]
    exact chainFrom_cons _ (hblk ▸ hch0) (by rw [hlen]) rfl
  · intro t ht
    rcases List.mem_cons.mp ht with rfl | ht'
    · refine ⟨_, List.mem_cons_self _ _, ?_⟩
      show (create_genesis_block sha dmp tg1 tg2 s).blocks.length + 1 = L.block_number + 1
      rw [hblk, hlen]
    · rw [htrans] at ht'
      obtain ⟨b, hb, hbn⟩ := htb t ht'
      exact ⟨b, List.mem_cons_of_mem _ (hsub b hb), hbn⟩
  · intro t ht
    rcases List.mem_cons.mp ht with rfl | ht'
    · rfl
    · rw [htrans] at ht'
      exact hth t ht'

theorem Sim.genesis_keeps_inv (sha : String → String) (dmp : Json → String)
    (t1 t2 : String) {s : SimState} (hinv : SimInv sha dmp s) :
    SimInv sha dmp (create_genesis_block sha dmp t1 t2 s) := by
  obtain ⟨hch, htb, hth⟩ := hinv
  obtain ⟨L, hlat, hlen, hch0, ⟨rest, hblk⟩, hsub, htrans⟩ :=
    genesis_latest sha dmp t1 t2 hch
  refine ⟨hch0, ?_, ?_⟩
  · intro t ht
    rw [htrans] at ht
    obtain ⟨b, hb, hbn⟩ := htb t ht
    exact ⟨b, hsub b hb, hbn⟩
  · intro t ht
    rw [htrans] at ht
    exact hth t ht

theorem Sim.issue_keeps_inv (sha : String → String) (dmp : Json → String)
    (ngo rid : String) (amt : ℚ) (price : Option ℚ) (cid tid t1 t2 t3 : String)
    {s : SimState} (hinv : SimInv sha dmp s) :
    SimInv sha dmp (issue_carbon_credits sha dmp ngo rid amt price cid tid t1 t2 t3 s).2 := by
  obtain ⟨hch, htb, hth⟩ := hinv
  simp only [issue_carbon_credits]
  split
  · exact ⟨hch, htb, hth⟩
  · rename_i latest hlat
    obtain ⟨rest, hblk, hlen⟩ := latest_spec hch hlat
    rw [hblk] at hlen
    refine ⟨?_, ?_, ?_⟩
    · show chainFrom 1 (_ :: s.blocks)
      rw [hblk]
      exact chainFrom_cons _ (hblk ▸ hch) (by rw [hlen]) rfl
    · intro t ht
      rcases List.mem_cons.mp ht with rfl | ht'
      · refine ⟨_, List.mem_cons_self _ _, ?_⟩
        show s.blocks.length + 1 = latest.block_number + 1
        rw [hblk, hlen]
      · obtain ⟨b, hb, hbn⟩ := htb t ht'
        exact ⟨b, List.mem_cons_of_mem _ hb, hbn⟩
    · intro t ht
      rcases List.mem_cons.mp ht with rfl | ht'
      · rfl
      · exact hth t ht'

theorem Sim.transfer_keeps_inv (sha : String → String) (dmp : Json → String)
    (cid fngo tco : String) (amt : Option ℚ) (tid t1 t2 t3 t4 : String)
    {s : SimState} (hinv : SimInv sha dmp s) :
    SimInv sha dmp (transfer_credits sha dmp cid fngo tco amt tid t1 t2 t3 t4 s).2 := by
  obtain ⟨hch, htb, hth⟩ := hinv
  simp only [transfer_credits]
  split
  · exact ⟨hch, htb, hth⟩
  · split
    · exact ⟨hch, htb, hth⟩
    · split
      · exact ⟨hch, htb, hth⟩
      · rename_i latest hlat
        obtain ⟨rest, hblk, hlen⟩ := latest_spec hch hlat
        rw [hblk] at hlen
        refine ⟨?_, ?_, ?_⟩
        · show chainFrom 1 (_ :: s.blocks)
          rw [hblk]
          exact chainFrom_cons _ (hblk ▸ hch) (by rw [hlen]) rfl
        · intro t ht
          rcases List.mem_cons.mp ht with rfl | ht'
          · refine ⟨_, List.mem_cons_self _ _, ?_⟩
            show s.blocks.length + 1 = latest.block_number + 1
            rw [hblk, hlen]
          · obtain ⟨b, hb, hbn⟩ := htb t ht'
            exact ⟨b, List.mem_cons_of_mem _ hb, hbn⟩
        · intro t ht
          rcases List.mem_cons.mp ht with rfl | ht'
          · rfl
          · exact hth t ht'

theorem Sim.reachable_keeps_inv (sha : String → String) (dmp : Json → String)
    {s : SimState} (h : Reachable sha dmp s) : SimInv sha dmp s := by
  induction h with
  | init => exact ⟨trivial, by simp [emptySim], by simp [emptySim]⟩
  | step _ hs ih =>
      cases hs with
      | genesis t1 t2 s => exact genesis_keeps_inv sha dmp t1 t2 ih
      | submit ngo proj v rid tid tg1 tg2 t1 t2 t3 s =>
          exact submit_keeps_inv sha dmp ngo proj v rid tid tg1 tg2 t1 t2 t3 ih
      | issue ngo rid amt price cid tid t1 t2 t3 s =>
          exact issue_keeps_inv sha dmp ngo rid amt price cid tid t1 t2 t3 ih
      | transfer cid fngo tco amt tid t1 t2 t3 t4 s =>
          exact transfer_keeps_inv sha dmp cid fngo tco amt tid t1 t2 t3 t4 ih

/-- Claim C4: in every reachable state of the simulator store, every
confirmed transaction's block number names a block present in the store, and
recomputing the canonical content hash of the transaction's stored payload
reproduces the stored payload hash. -/
theorem sim_confirmed_tx_integrity (sha : String → String) (dmp : Json → String)
    {s : Sim.SimState} (h : Sim.Reachable sha dmp s) :
    ∀ t ∈ s.transactions, t.status = ("confirmed") →
      (∃ b ∈ s.blocks, b.block_number = t.block_number) ∧
      Sim.calculate_hash sha dmp t.data = t.data_hash := by
  obtain ⟨hch, htb, hth⟩ := Sim.reachable_keeps_inv sha dmp h
  exact fun t ht _ => ⟨htb t ht, (hth t ht).symm⟩

theorem sim_confirmed_tx_integrity_witness :
    Sim.Reachable shaW dmpW wState4 ∧
    ∀ t ∈ wState4.transactions, t.status = ("confirmed") →
      (∃ b ∈ wState4.blocks, b.block_number = t.block_number) ∧
      Sim.calculate_hash shaW dmpW t.data = t.data_hash := by
  have hr : Sim.Reachable shaW dmpW wState4 :=
    Sim.Reachable.step Sim.Reachable.init
      (Sim.Step.submit ("ngo1") ("proj1") Json.null ("r1") ("tx1")
        ("g1") ("g2") ("t1") ("t2") ("t3") Sim.emptySim)
  exact ⟨hr, sim_confirmed_tx_integrity shaW dmpW hr⟩

/-- Claim C8: submitting a verification payload and then querying the
returned report id yields the very payload submitted (deep equality), and
recomputing the canonical payload hash from the returned payload equals the
hash stored — and returned — at submission time.  The freshness hypotheses
state that the generated UUIDs do not collide with stored rows. -/
theorem sim_submit_query_roundtrip (sha : String → String) (dmp : Json → String)
    (ngo proj : String) (v : Json) (rid tid tg1 tg2 t1 t2 t3 : String)
    {s : Sim.SimState} (hreach : Sim.Reachable sha dmp s)
    (hrid : ∀ r ∈ s.reports, r.report_id ≠ rid)
    (htid : ∀ t ∈ s.transactions, t.transaction_id ≠ tid) :
    ∃ rep tx blk,
      Sim.query_report rid
          (Sim.submit_verification_report sha dmp ngo proj v rid tid tg1 tg2 t1 t2 t3 s).2
        = some (rep, tx, blk) ∧
      rep.verification_data = v ∧
      Sim.calculate_hash sha dmp rep.verification_data = rep.data_hash ∧
      rep.data_hash
        = (Sim.submit_verification_report sha dmp ngo proj v rid tid tg1 tg2 t1 t2 t3 s).1.data_hash ∧
      blk.block_hash
        = (Sim.submit_verification_report sha dmp ngo proj v rid tid tg1 tg2 t1 t2 t3 s).1.block_hash := by
  obtain ⟨hch, htb, hth⟩ := Sim.reachable_keeps_inv sha dmp hreach
  obtain ⟨L, hlat, hlen, hch0, ⟨rest, hblk⟩, hsub, htrans⟩ :=
    Sim.genesis_latest sha dmp tg1 tg2 hch
  simp only [Sim.submit_verification_report, Sim.query_report, hlat]
  rw [List.find?_cons_of_pos _ (by simp)]
  simp only [Option.some_bind]
  rw [List.find?_cons_of_pos _ (by simp)]
  simp only [Option.some_bind]
  rw [List.find?_cons_of_pos _ (by simp [hlen])]
  simp only [Option.map_some']
  exact ⟨_, _, _, rfl, rfl, rfl, rfl, rfl⟩

theorem sim_submit_query_roundtrip_witness :
    Sim.Reachable shaW dmpW Sim.emptySim ∧
    (∀ r ∈ Sim.emptySim.reports, r.report_id ≠ ("r1")) ∧
    (∀ t ∈ Sim.emptySim.transactions, t.transaction_id ≠ ("tx1")) ∧
    (∃ rep tx blk,
      Sim.query_report ("r1")
          (Sim.submit_verification_report shaW dmpW ("ngo1") ("proj1") Json.null ("r1") ("tx1")
            ("g1") ("g2") ("t1") ("t2") ("t3") Sim.emptySim).2
        = some (rep, tx, blk) ∧
      rep.verification_data = Json.null ∧
      Sim.calculate_hash shaW dmpW rep.verification_data = rep.data_hash ∧
      rep.data_hash
        = (Sim.submit_verification_report shaW dmpW ("ngo1") ("proj1") Json.null ("r1") ("tx1")
            ("g1") ("g2") ("t1") ("t2") ("t3") Sim.emptySim).1.data_hash ∧
      blk.block_hash
        = (Sim.submit_verification_report shaW dmpW ("ngo1") ("proj1") Json.null ("r1") ("tx1")
            ("g1") ("g2") ("t1") ("t2") ("t3") Sim.emptySim).1.block_hash) :=
  ⟨Sim.Reachable.init, by simp [Sim.emptySim], by simp [Sim.emptySim],
    sim_submit_query_roundtrip shaW dmpW ("ngo1") ("proj1") Json.null ("r1") ("tx1")
      ("g1") ("g2") ("t1") ("t2") ("t3") Sim.Reachable.init
      (by simp [Sim.emptySim]) (by simp [Sim.emptySim])⟩

/-- Claim C10: `transfer_amount = amount or credit['amount']` treats an
explicit 0 like an absent amount, so transferring with amount 0 behaves
exactly like transferring with no amount — it moves the credit's full
remaining balance, not zero credits. -/
theorem sim_transfer_zero_amount_defaults (sha : String → String) (dmp : Json → String)
    (cid fngo tco : String) (tid t1 t2 t3 t4 : String) (s : Sim.SimState) (c : Sim.SCredit)
    (hfind : s.credits.find? (fun cr => cr.credit_id == cid && cr.status == ("available"))
      = some c)
    (L : Block) (hlat : Sim.get_latest_block s = some L) :
    Sim.transfer_credits sha dmp cid fngo tco (some 0) tid t1 t2 t3 t4 s
      = Sim.transfer_credits sha dmp cid fngo tco none tid t1 t2 t3 t4 s ∧
    ∃ res s', Sim.transfer_credits sha dmp cid fngo tco (some 0) tid t1 t2 t3 t4 s
        = (some res, s') ∧ res.amount = c.amount := by
  have hcall : Sim.transfer_credits sha dmp cid fngo tco (some 0) tid t1 t2 t3 t4 s
      = Sim.transfer_credits sha dmp cid fngo tco none tid t1 t2 t3 t4 s := by
    simp [Sim.transfer_credits, hfind]
  refine ⟨hcall, ?_⟩
  rw [hcall]
  simp only [Sim.transfer_credits, hfind, hlat]
  rw [if_neg (lt_irrefl c.amount)]
  exact ⟨_, _, rfl, rfl⟩

theorem sim_transfer_zero_amount_defaults_witness :
    (wState10.credits.find? (fun cr => cr.credit_id == ("SC1") && cr.status == ("available"))
      = some wCredit10) ∧
    (Sim.get_latest_block wState10 = some wBlock10) ∧
    (Sim.transfer_credits shaW dmpW ("SC1") ("ngo1") ("companyB") (some 0)
        ("tx") ("t1") ("t2") ("t3") ("t4") wState10
      = Sim.transfer_credits shaW dmpW ("SC1") ("ngo1") ("companyB") none
        ("tx") ("t1") ("t2") ("t3") ("t4") wState10 ∧
     ∃ res s', Sim.transfer_credits shaW dmpW ("SC1") ("ngo1") ("companyB") (some 0)
        ("tx") ("t1") ("t2") ("t3") ("t4") wState10 = (some res, s') ∧
       res.amount = wCredit10.amount) :=
  ⟨rfl, rfl,
    sim_transfer_zero_amount_defaults shaW dmpW ("SC1") ("ngo1") ("companyB")
      ("tx") ("t1") ("t2") ("t3") ("t4") wState10 wCredit10 rfl wBlock10 rfl⟩

/-- Claim C7, behavior of the code at the failing input: issuing credits
against a report id that references no stored report succeeds — a new block,
a transaction and a credit row carrying the dangling report id are created —
instead of failing with a report-not-found error.  This matches the gap the
spec flags: `issue_carbon_credits` never checks that `report_id` exists. -/
theorem sim_issue_skips_report_check :
    wState7.reports = [] ∧
    ∃ res s', Sim.issue_carbon_credits shaW dmpW ("ngo1") ("RPT-404") 10 none
        ("CR1") ("TX1") ("ta") ("tb") ("tc") wState7 = (some res, s') ∧
      (∃ c ∈ s'.credits, c.report_id = ("RPT-404") ∧ c.status = ("available")) ∧
      s'.blocks.length = wState7.blocks.length + 1 ∧
      s'.reports = [] := by
  refine ⟨rfl, _, _, rfl, ?_, rfl, rfl⟩
  refine ⟨_, List.mem_cons_self _ _, rfl, rfl⟩
